import Mathlib

/-!
Verification of the fume-hood sash actuator controller
(`src/hood_sash_automation/actuator/controller.py`, `relay.py`, `hall.py`,
`current.py`) against its natural-language specification.

The Python code is shallowly embedded: the relay driver becomes a small
step system over GPIO writes, the controller's `move_to_position` worker
becomes a deterministic function over an environment that supplies, at
each polling tick, the shared `current_position` field (written by the
hall-sensor interrupt callback), the stop flag, the hall snapshot and the
result of a raw current-sensor read (`Except` models an I2C read raising
`IOError`). Time is abstracted to polling ticks: each iteration of a
polling loop advances the tick by one, and the wall-clock ceilings
(`MAX_MOVEMENT_TIME`, the 1-second pulse ceiling) become tick counts.
-/

namespace SashHood

/-! Section: the relay driver (`relay.py`, class `ActuatorRelay`).

`up_on` runs `down_off()` then writes the up pin HIGH; `down_on` runs
`up_off()` then writes the down pin HIGH; `all_off` writes both pins LOW
in one `GPIO.output` call; `close` runs `all_off` then releases the pins
(no further output writes). Each `GPIO.output` call is one atomic step. -/

/-- The energization state of the two relay lines (up/extend, down/retract). -/
structure RelayState where
  up : Bool
  down : Bool
deriving DecidableEq, Repr

/-- One atomic `GPIO.output` write issued by `ActuatorRelay`. -/
inductive GpioWrite where
  | setUp (b : Bool)
  | setDown (b : Bool)
  | setBothLow
deriving DecidableEq, Repr

/-- Effect of a single GPIO write on the relay lines. -/
def gpioStep (s : RelayState) : GpioWrite → RelayState
  | .setUp b => ⟨b, s.down⟩
  | .setDown b => ⟨s.up, b⟩
  | .setBothLow => ⟨false, false⟩

/-- The public operations of `ActuatorRelay`. -/
inductive RelayOp where
  | up_on
  | down_on
  | all_off
  | close
deriving DecidableEq, Repr

/-- The sequence of GPIO writes each `ActuatorRelay` operation performs,
in source order: `up_on` = `down_off()` then up pin HIGH, `down_on` =
`up_off()` then down pin HIGH, `all_off` = both pins LOW at once,
`close` = `all_off()` then `GPIO.cleanup` (no output write). -/
def opWrites : RelayOp → List GpioWrite
  | .up_on => [.setDown false, .setUp true]
  | .down_on => [.setUp false, .setDown true]
  | .all_off => [.setBothLow]
  | .close => [.setBothLow]

/-- Run a list of GPIO writes to a final relay state. -/
def execWrites (s : RelayState) (ws : List GpioWrite) : RelayState :=
  ws.foldl gpioStep s

/-- All relay states visited while executing a list of GPIO writes,
including the starting state and every intermediate state. -/
def statesFrom (s : RelayState) : List GpioWrite → List RelayState
  | [] => [s]
  | w :: ws => s :: statesFrom (gpioStep s w) ws

/-- The GPIO writes of a whole sequence of relay operations. -/
def relayWrites (ops : List RelayOp) : List GpioWrite :=
  ops.flatMap opWrites

/-- The constructor `ActuatorRelay.__init__` sets both pins LOW (`initial=GPIO.LOW`). -/
def relayInit : RelayState := ⟨false, false⟩

/-- A relay state is safe when the two lines are not both energized. -/
def relaySafe (s : RelayState) : Prop := ¬(s.up = true ∧ s.down = true)

/-! Section: hall sensor position reading (`controller.py`, method `get_current_position`).

`HallArray.snapshot()` returns the list of debounced pin levels, where
level 0 means a magnet is present (channel active). `get_current_position`
scans the snapshot and returns `idx + 1` for the first index whose level
is 0, or `None` when no level is 0. -/

/-- Helper mirroring the `for idx, state in enumerate(states)` loop. -/
def gcpAux : Nat → List Nat → Option Nat
  | _, [] => none
  | idx, s :: rest => if s = 0 then some (idx + 1) else gcpAux (idx + 1) rest

/-- Method `SashActuator.get_current_position`: first active (level-0) channel's
index plus one, else `None`. -/
def get_current_position (states : List Nat) : Option Nat :=
  gcpAux 0 states

/-! Section: the movement controller (`controller.py`, class `SashActuator`).

The configuration dictionary entries the mover reads, with the wall-clock
ceilings expressed in polling ticks. -/

/-- Controller configuration (`CURRENT_THRESHOLD_UP`,
`CURRENT_THRESHOLD_DOWN`, `MAX_MOVEMENT_TIME`, `POSITION_TIMEOUT`). -/
structure Config where
  thresholdUp : Int
  thresholdDown : Int
  maxMovementTime : Nat
  positionTimeout : Nat
deriving Repr

/-- The world as the move worker observes it, indexed by polling tick:
`snapAt n` is what `hall.snapshot()` would return at tick `n`; `curPos n`
is the shared `self.current_position` field (written concurrently by the
hall edge callback); `stop n` is `stop_flag.is_set()`; `sample n` is the
result of `sensor.read_raw_shunt()` (`Except.error` models the I2C read
raising); `pulseTicks` is how many polling iterations fit in the 1-second
per-pulse ceiling of `_pulse_down`. -/
structure Env where
  snapAt : Nat → List Nat
  curPos : Nat → Option Nat
  stop : Nat → Bool
  sample : Nat → Except Unit Int
  pulseTicks : Nat

/-- The direction of travel, derived from current vs. target position. -/
inductive Direction where
  | up
  | down
deriving DecidableEq, Repr

/-- High-level relay commands the controller issues during a move. -/
inductive RelayCmd where
  | upOn
  | downOn
  | allOff
deriving DecidableEq, Repr

/-- Net effect of one relay command on the relay lines (`up_on` leaves
up HIGH / down LOW, `down_on` the reverse, `all_off` both LOW). -/
def applyCmd : RelayState → RelayCmd → RelayState
  | _, .upOn => ⟨true, false⟩
  | _, .downOn => ⟨false, true⟩
  | _, .allOff => ⟨false, false⟩

/-- Relay state after a trace of relay commands, starting from both OFF. -/
def relayRun (tr : List RelayCmd) : RelayState :=
  tr.foldl applyCmd relayInit

/-- Method `SashActuator._check_movement_current`: reads one raw sample and
returns `False` ("collision") when the sample is above the up threshold
(moving up) or below the down threshold (moving down). A raised read
error propagates (`Except.error`). -/
def check_movement_current (cfg : Config) (dir : Direction)
    (sample : Except Unit Int) : Except Unit Bool :=
  match sample with
  | .error e => .error e
  | .ok amps =>
    match dir with
    | .up => .ok (if amps > cfg.thresholdUp then false else true)
    | .down => .ok (if amps < cfg.thresholdDown then false else true)

/-- Method `SashActuator._validate_movement_sequence`: pure bookkeeping of
`(last_valid_time, last_valid_pos)`; affects only logging. -/
def validate_movement_sequence (cfg : Config) (startPos targetPos : Nat)
    (dir : Direction) (lastValidTime lastValidPos : Nat)
    (currentTime : Nat) (currentPos : Option Nat) : Nat × Nat :=
  if currentTime - lastValidTime > cfg.positionTimeout then
    (currentTime, lastValidPos)
  else
    match currentPos with
    | none => (lastValidTime, lastValidPos)
    | some cp =>
      match dir with
      | .up =>
        if (startPos + 1 ≤ cp ∧ cp ≤ targetPos) ∧ lastValidPos < cp then
          (currentTime, cp)
        else (lastValidTime, lastValidPos)
      | .down =>
        if (targetPos ≤ cp ∧ cp ≤ startPos - 1) ∧ cp < lastValidPos then
          (currentTime, cp)
        else (lastValidTime, lastValidPos)

/-- How one downward search pulse ended: `aborted` is `_pulse_down`
returning `False` (collision current seen), `moved` is returning `True`
after the position changed, `exhausted` is the 1-second ceiling expiring
(also returns `True`), `exn` is a sensor read raising. -/
inductive PulseEnd where
  | aborted
  | moved
  | exhausted
  | exn
deriving DecidableEq, Repr

/-- Result of one `_pulse_down` call: how it ended, the relay commands it
issued, and the polling tick after it returns. -/
structure PulseResult where
  res : PulseEnd
  trace : List RelayCmd
  next : Nat
deriving DecidableEq, Repr

/-- The inner polling loop of `_pulse_down` (`while time.time() -
start_time < 1.0`), with `j` iterations remaining: checks the current
sample first, then whether `self.current_position` moved away from the
position latched before the pulse. -/
def pulse_loop (cfg : Config) (env : Env) (initialPos : Option Nat) :
    Nat → Nat → PulseEnd × Nat
  | 0, n => (.exhausted, n)
  | j + 1, n =>
    match check_movement_current cfg .down (env.sample n) with
    | .error _ => (.exn, n)
    | .ok ok =>
      if ok = false then (.aborted, n + 1)
      else if (env.curPos n).isSome ∧ env.curPos n ≠ initialPos then
        (.moved, n + 1)
      else pulse_loop cfg env initialPos j (n + 1)

/-- Method `SashActuator._pulse_down`: energize the down relay, latch
`self.current_position` during the 1-second inrush sleep, run the polling
loop, and de-energize on every exit except a raised read error. -/
def pulse_down (cfg : Config) (env : Env) (n : Nat) : PulseResult :=
  let initialPos := env.curPos n
  match pulse_loop cfg env initialPos env.pulseTicks (n + 1) with
  | (.exn, m) => ⟨.exn, [RelayCmd.downOn], m⟩
  | (.aborted, m) => ⟨.aborted, [RelayCmd.downOn, RelayCmd.allOff], m⟩
  | (.moved, m) => ⟨.moved, [RelayCmd.downOn, RelayCmd.allOff], m⟩
  | (.exhausted, m) => ⟨.exhausted, [RelayCmd.downOn, RelayCmd.allOff], m + 1⟩

/-- How the position-recovery search ended. -/
inductive SearchEnd where
  | stopped
  | failed
  | found (pos : Nat)
  | exn
deriving DecidableEq, Repr

/-- Result of the search phase: how it ended, the relay commands issued
so far, and the next polling tick. -/
structure SearchResult where
  res : SearchEnd
  trace : List RelayCmd
  next : Nat
deriving DecidableEq, Repr

/-- The `for pulse in range(5)` search loop of `move_to_position` with
`p` pulses remaining: check the stop flag, run `_pulse_down` (its return
value is discarded, exactly as in the source), then read the shared
`self.current_position` field. -/
def search_pulses (cfg : Config) (env : Env) :
    Nat → Nat → List RelayCmd → SearchResult
  | 0, n, acc => ⟨.failed, acc, n⟩
  | p + 1, n, acc =>
    if env.stop n then ⟨.stopped, acc ++ [RelayCmd.allOff], n⟩
    else
      let pr := pulse_down cfg env n
      if pr.res = .exn then ⟨.exn, acc ++ pr.trace, pr.next⟩
      else
        match env.curPos pr.next with
        | some pos => ⟨.found pos, acc ++ pr.trace, pr.next + 1⟩
        | none => search_pulses cfg env p pr.next (acc ++ pr.trace)

/-- How the `while self.current_position != target_pos` loop ended. -/
inductive LoopEnd where
  | reached
  | stopped
  | timedOut
  | collision
  | exn
deriving DecidableEq, Repr

/-- The movement polling loop of `move_to_position`, with `fuel`
recursion budget, `k` iterations elapsed since the loop started (the
tick-count reading of `time.time() - start_time`), global tick `n`, and
the `(last_valid_time, last_valid_pos)` pair. Checks in source order:
loop condition (shared `self.current_position` equals target), stop flag,
timeout, current sample, sequence validation. The loop itself issues no
relay command. -/
def movement_loop (cfg : Config) (env : Env) (target : Nat)
    (dir : Direction) (startPos : Nat) :
    Nat → Nat → Nat → Nat × Nat → LoopEnd
  | 0, _, _, _ => .timedOut
  | fuel + 1, k, n, lv =>
    if env.curPos n = some target then .reached
    else if env.stop n then .stopped
    else if k > cfg.maxMovementTime then .timedOut
    else
      match check_movement_current cfg dir (env.sample n) with
      | .error _ => .exn
      | .ok ok =>
        if ok = false then .collision
        else
          movement_loop cfg env target dir startPos fuel (k + 1) (n + 1)
            (validate_movement_sequence cfg startPos target dir lv.1 lv.2 n
              (get_current_position (env.snapAt n)))

/-- Every way `move_to_position` can terminate. `alreadyAtTarget` is the
immediate "Already at position N" completion (the spec's ReachedTarget
with no relay activity); `exn` is a sensor read error propagating out of
the worker. -/
inductive MoveExit where
  | invalidTarget
  | alreadyAtTarget
  | stoppedInSearch
  | searchFailed
  | reachedTarget
  | stopped
  | timedOut
  | collisionDetected
  | exn
deriving DecidableEq, Repr

/-- Observable outcome of one `move_to_position` worker run: the exit
taken, the relay commands issued in order, and whether
`_write_position_state` was invoked (the external last-position marker
written). -/
structure MoveResult where
  exit : MoveExit
  trace : List RelayCmd
  wrote : Bool
deriving DecidableEq, Repr

/-- The directed-movement phase of `move_to_position`: choose the
direction from resolved current position vs. target, energize that relay
line, sleep past the inrush spike (one tick), run the movement loop;
afterwards `relay.all_off()` and `_write_position_state()` — unless the
loop exited by a raised read error, which skips both. -/
def run_movement (cfg : Config) (env : Env) (target startPos : Nat)
    (trace0 : List RelayCmd) (n : Nat) : MoveResult :=
  let dir := if startPos < target then Direction.up else Direction.down
  let cmd := if startPos < target then RelayCmd.upOn else RelayCmd.downOn
  let trace1 := trace0 ++ [cmd]
  let n1 := n + 1
  match movement_loop cfg env target dir startPos (cfg.maxMovementTime + 2)
      0 n1 (n1, startPos) with
  | .exn => ⟨.exn, trace1, false⟩
  | .reached => ⟨.reachedTarget, trace1 ++ [RelayCmd.allOff], true⟩
  | .stopped => ⟨.stopped, trace1 ++ [RelayCmd.allOff], true⟩
  | .timedOut => ⟨.timedOut, trace1 ++ [RelayCmd.allOff], true⟩
  | .collision => ⟨.collisionDetected, trace1 ++ [RelayCmd.allOff], true⟩

/-- Method `SashActuator.move_to_position` (the worker body): validate the
target range, read the sensor-derived position, return immediately when
already at target, otherwise search for a position when unknown, then run
the directed movement phase. -/
def move_to_position (cfg : Config) (env : Env) (target : Nat) : MoveResult :=
  if ¬(1 ≤ target ∧ target ≤ 5) then ⟨.invalidTarget, [], false⟩
  else
    let cp0 := get_current_position (env.snapAt 0)
    if cp0 = some target then ⟨.alreadyAtTarget, [], false⟩
    else
      match cp0 with
      | some p => run_movement cfg env target p [] 1
      | none =>
        let sr := search_pulses cfg env 5 1 []
        match sr.res with
        | .stopped => ⟨.stoppedInSearch, sr.trace, false⟩
        | .failed => ⟨.searchFailed, sr.trace, false⟩
        | .exn => ⟨.exn, sr.trace, false⟩
        | .found p => run_movement cfg env target p sr.trace sr.next

/-- Method `SashActuator.move_to_position_async`: returns `False` without
spawning anything when the movement thread is alive, else spawns the
worker and returns `True`. The second component is the spawned worker's
run (`none` when no worker was started). -/
def move_to_position_async (alive : Bool) (cfg : Config) (env : Env)
    (target : Nat) : Bool × Option MoveResult :=
  if alive then (false, none)
  else (true, some (move_to_position cfg env target))

/-- Method `SashActuator.home_on_startup`: asynchronously move to position 1. -/
def home_on_startup (alive : Bool) (cfg : Config) (env : Env) :
    Bool × Option MoveResult :=
  move_to_position_async alive cfg env 1

/-- The tail of `SashActuator.__init__`: `movement_thread` is `None`
(no worker alive) and `home_on_startup()` is called before the
constructor returns. -/
def construct_controller (cfg : Config) (env : Env) :
    Bool × Option MoveResult :=
  home_on_startup false cfg env

/-! Section: helper lemmas shared by the claim theorems. -/

theorem mem_statesFrom_append (s : RelayState) (l1 l2 : List GpioWrite)
    (x : RelayState) (hx : x ∈ statesFrom s (l1 ++ l2)) :
    x ∈ statesFrom s l1 ∨ x ∈ statesFrom (execWrites s l1) l2 := by
  induction l1 generalizing s with
  | nil =>
    right
    simpa [execWrites] using hx
  | cons w ws ih =>
    simp only [List.cons_append, statesFrom, List.mem_cons] at hx
    rcases hx with rfl | hx
    · left; simp [statesFrom]
    · rcases ih (gpioStep s w) hx with h | h
      · left; simp [statesFrom, h]
      · right; simpa [execWrites] using h

theorem op_statesFrom_safe (op : RelayOp) (s : RelayState)
    (hs : relaySafe s) (x : RelayState)
    (hx : x ∈ statesFrom s (opWrites op)) : relaySafe x := by
  cases op <;>
    simp only [opWrites, statesFrom, gpioStep, List.mem_cons,
      List.mem_singleton, List.not_mem_nil, or_false] at hx <;>
    rcases hx with rfl | rfl | rfl <;>
    simp_all [relaySafe]

theorem op_execWrites_safe (op : RelayOp) (s : RelayState) :
    relaySafe (execWrites s (opWrites op)) := by
  cases op <;> simp [opWrites, execWrites, gpioStep, relaySafe]

theorem relayWrites_safe_from (ops : List RelayOp) (s : RelayState)
    (hs : relaySafe s) (x : RelayState)
    (hx : x ∈ statesFrom s (relayWrites ops)) : relaySafe x := by
  induction ops generalizing s with
  | nil =>
    simp only [relayWrites, List.flatMap_nil, statesFrom,
      List.mem_singleton] at hx
    exact hx ▸ hs
  | cons op ops ih =>
    have hx' : x ∈ statesFrom s (opWrites op ++ relayWrites ops) := by
      simpa [relayWrites] using hx
    rcases mem_statesFrom_append s (opWrites op) (relayWrites ops) x hx' with
      h | h
    · exact op_statesFrom_safe op s hs x h
    · exact ih (execWrites s (opWrites op)) (op_execWrites_safe op s) h

theorem gcpAux_eq_none (k : Nat) (states : List Nat) :
    gcpAux k states = none ↔ ∀ s ∈ states, s ≠ 0 := by
  induction states generalizing k with
  | nil => simp [gcpAux]
  | cons s rest ih =>
    by_cases h : s = 0
    · simp [gcpAux, h]
    · simp [gcpAux, h, ih]

theorem gcpAux_first (states : List Nat) (k i : Nat) (h : i < states.length)
    (hi : states.get ⟨i, h⟩ = 0)
    (hj : ∀ j (hj : j < states.length), j < i → states.get ⟨j, hj⟩ ≠ 0) :
    gcpAux k states = some (k + i + 1) := by
  induction states generalizing k i with
  | nil => simp at h
  | cons s rest ih =>
    cases i with
    | zero =>
      simp only [List.get] at hi
      simp [gcpAux, hi]
    | succ i' =>
      have hs : s ≠ 0 := by
        have := hj 0 (by simp) (Nat.succ_pos i')
        simpa using this
      have h' : i' < rest.length := Nat.lt_of_succ_lt_succ h
      have hi' : rest.get ⟨i', h'⟩ = 0 := by simpa using hi
      have hj' : ∀ j (hjl : j < rest.length), j < i' →
          rest.get ⟨j, hjl⟩ ≠ 0 := by
        intro j hjl hji
        have := hj (j + 1) (by simpa using Nat.succ_lt_succ hjl)
          (Nat.succ_lt_succ hji)
        simpa using this
      have := ih (k + 1) i' h' hi' hj'
      simp only [gcpAux, hs, if_false]
      rw [this]
      congr 1
      omega

theorem relayRun_concat_allOff (l : List RelayCmd) :
    relayRun (l ++ [RelayCmd.allOff]) = relayInit := by
  simp [relayRun, List.foldl_append, applyCmd, relayInit]

theorem relayRun_concat2_allOff (l : List RelayCmd) (c : RelayCmd) :
    relayRun (l ++ [c, RelayCmd.allOff]) = relayInit := by
  have h : l ++ [c, RelayCmd.allOff] = (l ++ [c]) ++ [RelayCmd.allOff] := by
    simp
  rw [h]
  exact relayRun_concat_allOff _

theorem pulse_down_trace_of_ne_exn (cfg : Config) (env : Env) (n : Nat)
    (h : (pulse_down cfg env n).res ≠ PulseEnd.exn) :
    (pulse_down cfg env n).trace = [RelayCmd.downOn, RelayCmd.allOff] := by
  unfold pulse_down at h ⊢
  rcases hp : pulse_loop cfg env (env.curPos n) env.pulseTicks (n + 1) with
    ⟨pe, m⟩
  cases pe <;> simp_all

theorem pulse_down_trace_cons (cfg : Config) (env : Env) (n : Nat) :
    ∃ t, (pulse_down cfg env n).trace = RelayCmd.downOn :: t := by
  unfold pulse_down
  rcases hp : pulse_loop cfg env (env.curPos n) env.pulseTicks (n + 1) with
    ⟨pe, m⟩
  cases pe <;> simp [hp]

theorem search_pulses_relayRun (cfg : Config) (env : Env) (p n : Nat)
    (acc : List RelayCmd) (hacc : relayRun acc = relayInit)
    (h : (search_pulses cfg env p n acc).res ≠ SearchEnd.exn) :
    relayRun (search_pulses cfg env p n acc).trace = relayInit := by
  induction p generalizing n acc with
  | zero => simpa [search_pulses] using hacc
  | succ p ih =>
    by_cases hstop : env.stop n
    · simp only [search_pulses, hstop, if_true]
      exact relayRun_concat_allOff acc
    · simp only [search_pulses, hstop, if_false] at h ⊢
      by_cases hexn : (pulse_down cfg env n).res = PulseEnd.exn
      · simp [hexn] at h
      · have htr := pulse_down_trace_of_ne_exn cfg env n hexn
        simp only [hexn, if_false] at h ⊢
        rcases hcp : env.curPos (pulse_down cfg env n).next with _ | pos
        · simp only [hcp] at h ⊢
          apply ih
          · rw [htr]
            have : acc ++ [RelayCmd.downOn, RelayCmd.allOff]
                = (acc ++ [RelayCmd.downOn]) ++ [RelayCmd.allOff] := by
              simp
            rw [this]
            exact relayRun_concat_allOff _
          · exact h
        · simp only [hcp]
          rw [htr]
          have : acc ++ [RelayCmd.downOn, RelayCmd.allOff]
              = (acc ++ [RelayCmd.downOn]) ++ [RelayCmd.allOff] := by
            simp
          rw [this]
          exact relayRun_concat_allOff _

theorem search_pulses_trace_extends (cfg : Config) (env : Env) (p n : Nat)
    (acc : List RelayCmd) :
    ∃ ext, (search_pulses cfg env p n acc).trace = acc ++ ext := by
  induction p generalizing n acc with
  | zero => exact ⟨[], by simp [search_pulses]⟩
  | succ p ih =>
    by_cases hstop : env.stop n
    · exact ⟨[RelayCmd.allOff], by simp [search_pulses, hstop]⟩
    · simp only [search_pulses, hstop, if_false]
      by_cases hexn : (pulse_down cfg env n).res = PulseEnd.exn
      · exact ⟨(pulse_down cfg env n).trace, by simp [hexn]⟩
      · simp only [hexn, if_false]
        rcases hcp : env.curPos (pulse_down cfg env n).next with _ | pos
        · rcases ih (pulse_down cfg env n).next
            (acc ++ (pulse_down cfg env n).trace) with ⟨ext, hext⟩
          exact ⟨(pulse_down cfg env n).trace ++ ext, by
            simp [hext, List.append_assoc]⟩
        · exact ⟨(pulse_down cfg env n).trace, by simp⟩

theorem run_movement_relayRun (cfg : Config) (env : Env)
    (target startPos : Nat) (trace0 : List RelayCmd) (n : Nat)
    (h : (run_movement cfg env target startPos trace0 n).exit ≠ MoveExit.exn) :
    relayRun (run_movement cfg env target startPos trace0 n).trace
      = relayInit := by
  unfold run_movement at h ⊢
  rcases hl : movement_loop cfg env target
      (if startPos < target then Direction.up else Direction.down) startPos
      (cfg.maxMovementTime + 2) 0 (n + 1) (n + 1, startPos) with
    _ | _ | _ | _ | _ <;>
    simp_all [relayRun_concat2_allOff]

/-- Booleanized "the movement polling loop ran and exited" predicate on
move exits: exactly the exits on which the source calls
`_write_position_state` (the code at the end of `move_to_position` runs
for every exit of the `while` loop). -/
def writesMarker : MoveExit → Bool
  | .reachedTarget => true
  | .stopped => true
  | .timedOut => true
  | .collisionDetected => true
  | _ => false

theorem run_movement_wrote (cfg : Config) (env : Env)
    (target startPos : Nat) (trace0 : List RelayCmd) (n : Nat) :
    (run_movement cfg env target startPos trace0 n).wrote
      = writesMarker (run_movement cfg env target startPos trace0 n).exit := by
  unfold run_movement
  rcases hl : movement_loop cfg env target
      (if startPos < target then Direction.up else Direction.down) startPos
      (cfg.maxMovementTime + 2) 0 (n + 1) (n + 1, startPos) with
    _ | _ | _ | _ | _ <;> simp [hl, writesMarker]

theorem move_to_position_shape (cfg : Config) (env : Env) (target : Nat) :
    move_to_position cfg env target = ⟨.invalidTarget, [], false⟩
  ∨ move_to_position cfg env target = ⟨.alreadyAtTarget, [], false⟩
  ∨ (∃ p, get_current_position (env.snapAt 0) = some p ∧
      move_to_position cfg env target = run_movement cfg env target p [] 1)
  ∨ (get_current_position (env.snapAt 0) = none ∧
      ((search_pulses cfg env 5 1 []).res = SearchEnd.stopped ∧
          move_to_position cfg env target
            = ⟨.stoppedInSearch, (search_pulses cfg env 5 1 []).trace, false⟩
        ∨ (search_pulses cfg env 5 1 []).res = SearchEnd.failed ∧
          move_to_position cfg env target
            = ⟨.searchFailed, (search_pulses cfg env 5 1 []).trace, false⟩
        ∨ (search_pulses cfg env 5 1 []).res = SearchEnd.exn ∧
          move_to_position cfg env target
            = ⟨.exn, (search_pulses cfg env 5 1 []).trace, false⟩
        ∨ ∃ p, (search_pulses cfg env 5 1 []).res = SearchEnd.found p ∧
          move_to_position cfg env target
            = run_movement cfg env target p
                (search_pulses cfg env 5 1 []).trace
                (search_pulses cfg env 5 1 []).next)) := by
  by_cases hrange : 1 ≤ target ∧ target ≤ 5
  · by_cases hat : get_current_position (env.snapAt 0) = some target
    · right; left
      simp [move_to_position, hrange, hat]
    · rcases hcp : get_current_position (env.snapAt 0) with _ | p
      · right; right; right
        refine ⟨rfl, ?_⟩
        rcases hsr : (search_pulses cfg env 5 1 []).res with _ | _ | pos | _
        · left
          exact ⟨rfl, by simp [move_to_position, hrange, hat, hcp, hsr]⟩
        · right; left
          exact ⟨rfl, by simp [move_to_position, hrange, hat, hcp, hsr]⟩
        · right; right; right
          exact ⟨pos, rfl, by simp [move_to_position, hrange, hat, hcp, hsr]⟩
        · right; right; left
          exact ⟨rfl, by simp [move_to_position, hrange, hat, hcp, hsr]⟩
      · right; right; left
        have hpt : p ≠ target := by
          intro he
          exact hat (by rw [hcp, he])
        exact ⟨p, rfl, by simp [move_to_position, hrange, hat, hcp, hpt]⟩
  · left
    simp [move_to_position, hrange]

/-! Section: concrete configurations and environments used as inputs for
counterexamples and witnesses. The thresholds and ceilings match the
repository's test configuration (`CURRENT_THRESHOLD_UP = 1300`,
`CURRENT_THRESHOLD_DOWN = -1300`). -/

/-- Standard test configuration. -/
def cfgStd : Config := ⟨1300, -1300, 10, 2⟩

/-- World for C2: sash at position 1, every current read raises. -/
def envC2 : Env :=
  ⟨fun _ => [0, 1, 1, 1, 1], fun _ => some 1, fun _ => false,
   fun _ => .error (), 3⟩

/-- World for C4: sash at position 1, stop requested from tick 2 on. -/
def envC4 : Env :=
  ⟨fun _ => [0, 1, 1, 1, 1], fun _ => some 1, fun n => decide (2 ≤ n),
   fun _ => .ok 100, 3⟩

/-- World for C5: sash at position 1; exactly one sample (tick 2, the
first movement-loop iteration) is above the up collision threshold, all
others nominal. -/
def envC5 : Env :=
  ⟨fun _ => [0, 1, 1, 1, 1], fun _ => some 1, fun _ => false,
   fun n => .ok (if n = 2 then 2000 else 100), 3⟩

/-- World for C6/C7: sash at rest at position 1, nominal current. -/
def envC6 : Env :=
  ⟨fun _ => [0, 1, 1, 1, 1], fun _ => some 1, fun _ => false,
   fun _ => .ok 100, 3⟩

/-- World for C8: sash at position 3, nominal current. -/
def envC8 : Env :=
  ⟨fun _ => [1, 1, 0, 1, 1], fun _ => some 3, fun _ => false,
   fun _ => .ok 100, 3⟩

/-- World for C9: no sensor active, the position never resolves, and
every current sample is below the reverse collision threshold, so every
search pulse aborts on collision current. One polling iteration per
pulse. -/
def envC9 : Env :=
  ⟨fun _ => [1, 1, 1, 1, 1], fun _ => none, fun _ => false,
   fun _ => .ok (-2000), 1⟩

/-! Section: the claims. -/

/-- C1: for every sequence of `ActuatorRelay` operations (`up_on`,
`down_on`, `all_off`, `close`) started from the constructor's both-LOW
state, no state reached between or inside operations — i.e. after any
prefix of the atomic GPIO writes — has both relay lines energized: each
"on" command de-energizes the opposite line before energizing its own. -/
theorem c1_no_simultaneous_energization (ops : List RelayOp)
    (x : RelayState) (hx : x ∈ statesFrom relayInit (relayWrites ops)) :
    relaySafe x :=
  relayWrites_safe_from ops relayInit (by simp [relaySafe, relayInit]) x hx

/-- C1 witness: a concrete operation sequence exercising both directions,
`all_off` and `close`, at a concrete intermediate state. -/
theorem c1_no_simultaneous_energization_witness :
    relaySafe ⟨true, false⟩ :=
  c1_no_simultaneous_energization
    [RelayOp.up_on, RelayOp.down_on, RelayOp.all_off, RelayOp.close]
    ⟨true, false⟩ (by decide)

/-- C2 counterexample: with the sash at position 1 and a move to 3, the
very first current read inside the movement loop raises
(`SensorReadError`); the worker terminates on the exception path with the
up relay line still energized and `all_off` never issued — the read
failure is not absorbed as an ambiguous sample, and cleanup does not run
on this exit path. -/
theorem c2_counterexample :
    (move_to_position cfgStd envC2 3).exit = MoveExit.exn ∧
    (move_to_position cfgStd envC2 3).trace = [RelayCmd.upOn] ∧
    relayRun (move_to_position cfgStd envC2 3).trace
      = ⟨true, false⟩ := by decide

/-- C2 amended: on every non-exceptional exit path of `move_to_position`
(reached target, stop request, timeout, collision abort, stop during
search, search exhausted, invalid target, already at target) both relay
lines are de-energized when the operation terminates; but an exception
raised while sampling current propagates out of the loop and terminates
the move with a relay line still energized — `SensorReadError` is not
absorbed as an ambiguous sample. -/
theorem c2_cleanup_on_nonexceptional_exit (cfg : Config) (env : Env)
    (target : Nat)
    (h : (move_to_position cfg env target).exit ≠ MoveExit.exn) :
    relayRun (move_to_position cfg env target).trace = relayInit := by
  rcases move_to_position_shape cfg env target with
    h1 | h1 | ⟨p, hp, h1⟩ | ⟨hcp, hs⟩
  · rw [h1]; rfl
  · rw [h1]; rfl
  · rw [h1] at h ⊢
    exact run_movement_relayRun cfg env target p [] 1 h
  · rcases hs with ⟨hres, h1⟩ | ⟨hres, h1⟩ | ⟨hres, h1⟩ | ⟨p, hres, h1⟩
    · rw [h1]
      exact search_pulses_relayRun cfg env 5 1 [] rfl (by simp [hres])
    · rw [h1]
      exact search_pulses_relayRun cfg env 5 1 [] rfl (by simp [hres])
    · rw [h1] at h
      simp at h
    · rw [h1] at h ⊢
      exact run_movement_relayRun cfg env target p
        (search_pulses cfg env 5 1 []).trace
        (search_pulses cfg env 5 1 []).next h

/-- C2 witness: a stop-interrupted move (sash at 1, stop from tick 2,
target 3) exits non-exceptionally and ends with both lines de-energized. -/
theorem c2_cleanup_on_nonexceptional_exit_witness :
    relayRun (move_to_position cfgStd envC4 3).trace = relayInit :=
  c2_cleanup_on_nonexceptional_exit cfgStd envC4 3 (by decide)

/-- C3 counterexample: an ambiguous snapshot with channels 0 and 1 both
active (level 0) is resolved to position 1 — the first active channel —
rather than to unknown (`none`) as the claim states. -/
theorem c3_counterexample :
    get_current_position [0, 0, 1, 1, 1] = some 1 ∧
    get_current_position [0, 0, 1, 1, 1] ≠ none := by decide

/-- C3 amended: `get_current_position` returns `none` exactly when no
channel is active, and otherwise returns `i + 1` where `i` is the first
(lowest-index) active channel — a multi-active snapshot is resolved by
picking the first active channel, not reported as unknown. -/
theorem c3_first_active_channel (states : List Nat) :
    (get_current_position states = none ↔ ∀ s ∈ states, s ≠ 0) ∧
    (∀ i (h : i < states.length), states.get ⟨i, h⟩ = 0 →
      (∀ j (hj : j < states.length), j < i → states.get ⟨j, hj⟩ ≠ 0) →
      get_current_position states = some (i + 1)) := by
  refine ⟨gcpAux_eq_none 0 states, ?_⟩
  intro i h hi hj
  have := gcpAux_first states 0 i h hi hj
  simpa [get_current_position] using this

/-- C3 witness: on `[1, 0, 1]` the unique active channel is index 1, and
the reading is position 2. -/
theorem c3_first_active_channel_witness :
    get_current_position [1, 0, 1] = some 2 := by
  have h := (c3_first_active_channel [1, 0, 1]).2 1 (by decide) (by decide)
    (by decide)
  exact h

/-- C4 counterexample: a move from 1 toward 3 interrupted by a stop
request finishes with outcome Stopped and still writes the external
last-position marker (`_write_position_state` runs on every movement-loop
exit), contradicting "on Stopped … the persisted marker remains
unchanged". -/
theorem c4_counterexample :
    (move_to_position cfgStd envC4 3).exit = MoveExit.stopped ∧
    (move_to_position cfgStd envC4 3).wrote = true := by decide

/-- C4 amended: the external last-position marker is written exactly when
the move ran and exited the movement polling loop — on ReachedTarget,
Stopped, TimedOut and CollisionDetected alike — and is not written on the
early exits (invalid target, already at target, stop during search,
search exhausted) nor on an exceptional exit; in particular a move that
finds the sash already at the target does not persist anything. -/
theorem c4_marker_on_loop_exit (cfg : Config) (env : Env) (target : Nat) :
    (move_to_position cfg env target).wrote
      = writesMarker (move_to_position cfg env target).exit := by
  rcases move_to_position_shape cfg env target with
    h1 | h1 | ⟨p, hp, h1⟩ | ⟨hcp, hs⟩
  · rw [h1]; rfl
  · rw [h1]; rfl
  · rw [h1]
    exact run_movement_wrote cfg env target p [] 1
  · rcases hs with ⟨hres, h1⟩ | ⟨hres, h1⟩ | ⟨hres, h1⟩ | ⟨p, hres, h1⟩ <;>
      rw [h1]
    · rfl
    · rfl
    · rfl
    · exact run_movement_wrote cfg env target p
        (search_pulses cfg env 5 1 []).trace
        (search_pulses cfg env 5 1 []).next

/-- C5 counterexample: with the sash at 1 moving to 3, the sample
sequence contains exactly one above-threshold reading (2000 > 1300 at the
first loop iteration, all other samples 100); the move aborts with
CollisionDetected on that single isolated sample — there is no
consecutive-sample requirement in the code. -/
theorem c5_counterexample :
    envC5.sample 2 = Except.ok 2000 ∧
    envC5.sample 3 = Except.ok 100 ∧
    move_to_position cfgStd envC5 3
      = ⟨MoveExit.collisionDetected,
         [RelayCmd.upOn, RelayCmd.allOff], true⟩ :=
  ⟨rfl, rfl, by decide⟩

/-- C5 amended: one sample beyond the direction's collision threshold
aborts the move immediately: whenever a movement-loop iteration is
reached (target not yet reported, no stop request, not timed out) and its
single current sample is above the up threshold (moving up) or below the
down threshold (moving down), the loop exits with collision at that very
iteration, regardless of all earlier samples. -/
theorem c5_single_sample_aborts (cfg : Config) (env : Env) (target : Nat)
    (dir : Direction) (startPos fuel k n : Nat) (lv : Nat × Nat)
    (hpos : env.curPos n ≠ some target) (hstop : env.stop n = false)
    (htime : k ≤ cfg.maxMovementTime) (a : Int)
    (hs : env.sample n = Except.ok a)
    (hbad : (dir = Direction.up ∧ cfg.thresholdUp < a)
          ∨ (dir = Direction.down ∧ a < cfg.thresholdDown)) :
    movement_loop cfg env target dir startPos (fuel + 1) k n lv
      = LoopEnd.collision := by
  have hk : ¬ k > cfg.maxMovementTime := by omega
  rcases hbad with ⟨hdir, hlt⟩ | ⟨hdir, hlt⟩ <;> subst hdir <;>
    simp [movement_loop, hpos, hstop, hk, hs, check_movement_current, hlt]

/-- C5 witness: the collision abort of the C5 counterexample world,
entered at the first loop iteration with its single 2000-count sample. -/
theorem c5_single_sample_aborts_witness :
    movement_loop cfgStd envC5 3 Direction.up 1 12 0 2 (2, 1)
      = LoopEnd.collision :=
  c5_single_sample_aborts cfgStd envC5 3 Direction.up 1 11 0 2 (2, 1)
    (by decide) rfl (by decide) 2000 rfl
    (Or.inl ⟨rfl, by decide⟩)

/-- C6 counterexample: `moveToPosition(6)` on the idle 5-position system
is not rejected synchronously: `move_to_position_async` spawns the worker
and returns `True` (success) to the caller; the range check only happens
inside the worker. -/
theorem c6_counterexample :
    move_to_position_async false cfgStd envC6 6
      = (true, some ⟨MoveExit.invalidTarget, [], false⟩) := by decide

/-- C6 amended: for every out-of-range target the async entry point on an
idle controller still starts a worker and reports success (`True`); the
worker then detects the invalid target itself and exits immediately with
no relay command and no persisted-state write — the rejection is neither
synchronous nor signalled to the caller, but it does have no hardware
side effect. -/
theorem c6_range_checked_in_worker (cfg : Config) (env : Env)
    (target : Nat) (h : ¬(1 ≤ target ∧ target ≤ 5)) :
    move_to_position_async false cfg env target
      = (true, some ⟨MoveExit.invalidTarget, [], false⟩) := by
  simp [move_to_position_async, move_to_position, h]

/-- C6 witness: target 6 on the standard 5-position configuration. -/
theorem c6_range_checked_in_worker_witness :
    move_to_position_async false cfgStd envC6 6
      = (true, some ⟨MoveExit.invalidTarget, [], false⟩) :=
  c6_range_checked_in_worker cfgStd envC6 6 (by decide)

/-- C7: while a move worker is alive, a second `move_to_position_async`
call returns `False` immediately and spawns nothing: no worker run, hence
no relay command and no controller-state change. -/
theorem c7_second_move_rejected (cfg : Config) (env : Env) (target : Nat) :
    move_to_position_async true cfg env target = (false, none) := rfl

/-- C8: for every in-range target already reported by the sensors, the
worker finishes immediately on the already-at-target (ReachedTarget)
exit with an empty relay-command trace: no energize and no de-energize
call ever reaches the relay driver. -/
theorem c8_already_at_target (cfg : Config) (env : Env) (target : Nat)
    (h1 : 1 ≤ target) (h2 : target ≤ 5)
    (h3 : get_current_position (env.snapAt 0) = some target) :
    move_to_position cfg env target
      = ⟨MoveExit.alreadyAtTarget, [], false⟩ := by
  simp [move_to_position, h1, h2, h3]

/-- C8 witness: sash resting at position 3, `moveToPosition(3)`. -/
theorem c8_already_at_target_witness :
    move_to_position cfgStd envC8 3
      = ⟨MoveExit.alreadyAtTarget, [], false⟩ :=
  c8_already_at_target cfgStd envC8 3 (by decide) (by decide) (by decide)

/-- C9 counterexample: in a search where every pulse's current sample is
beyond the reverse collision threshold, the first pulse aborts on
collision (`_pulse_down` returns `False`), yet the search does not stop:
four further pulses each energize the reverse relay again (the trace
contains `downOn` after the aborting pulse), and the run ends in
SearchFailed only after exhausting all five pulses. -/
theorem c9_counterexample :
    (pulse_down cfgStd envC9 1).res = PulseEnd.aborted ∧
    move_to_position cfgStd envC9 3
      = ⟨MoveExit.searchFailed,
         [RelayCmd.downOn, RelayCmd.allOff, RelayCmd.downOn,
          RelayCmd.allOff, RelayCmd.downOn, RelayCmd.allOff,
          RelayCmd.downOn, RelayCmd.allOff, RelayCmd.downOn,
          RelayCmd.allOff], false⟩ := by decide

/-- C9 amended: a pulse that observes a single sample beyond the reverse
collision threshold de-energizes the relay and returns a failure result,
but `move_to_position` discards that result: if no position has appeared
and no stop is requested, the search continues exactly as after a
successful pulse, and the next pulse energizes the reverse relay again
(`downOn` follows the aborted pulse's commands in the trace). -/
theorem c9_search_continues_after_collision (cfg : Config) (env : Env)
    (p n : Nat) (acc : List RelayCmd) (hp : 1 ≤ p)
    (hstop : env.stop n = false)
    (habort : (pulse_down cfg env n).res = PulseEnd.aborted)
    (hnopos : env.curPos (pulse_down cfg env n).next = none)
    (hstop2 : env.stop (pulse_down cfg env n).next = false) :
    search_pulses cfg env (p + 1) n acc
      = search_pulses cfg env p (pulse_down cfg env n).next
          (acc ++ (pulse_down cfg env n).trace)
    ∧ ∃ ext, (search_pulses cfg env (p + 1) n acc).trace
        = acc ++ (pulse_down cfg env n).trace ++ RelayCmd.downOn :: ext := by
  have hne : (pulse_down cfg env n).res ≠ PulseEnd.exn := by simp [habort]
  have hstep : search_pulses cfg env (p + 1) n acc
      = search_pulses cfg env p (pulse_down cfg env n).next
          (acc ++ (pulse_down cfg env n).trace) := by
    simp only [search_pulses, hstop, Bool.false_eq_true, if_false, hne,
      hnopos]
  refine ⟨hstep, ?_⟩
  obtain ⟨q, rfl⟩ : ∃ q, p = q + 1 := ⟨p - 1, by omega⟩
  rw [hstep]
  rcases pulse_down_trace_cons cfg env (pulse_down cfg env n).next with
    ⟨t, ht⟩
  by_cases hexn :
      (pulse_down cfg env (pulse_down cfg env n).next).res = PulseEnd.exn
  · refine ⟨t, ?_⟩
    simp [search_pulses, hstop2, hexn, ht, List.append_assoc]
  · rcases hcp2 : env.curPos
        (pulse_down cfg env (pulse_down cfg env n).next).next with _ | pos
    · rcases search_pulses_trace_extends cfg env q
          (pulse_down cfg env (pulse_down cfg env n).next).next
          ((acc ++ (pulse_down cfg env n).trace)
            ++ (pulse_down cfg env (pulse_down cfg env n).next).trace) with
        ⟨ext2, hext⟩
      rw [ht] at hext
      refine ⟨t ++ ext2, ?_⟩
      simp only [search_pulses, hstop2, Bool.false_eq_true, if_false,
        hexn, hcp2, ht]
      simpa [List.append_assoc] using hext
    · refine ⟨t, ?_⟩
      simp [search_pulses, hstop2, hexn, hcp2, ht, List.append_assoc]

/-- C9 witness: in the C9 world the first pulse aborts on collision
current, the search goes on to pulse 2, and the reverse relay is
energized again right after the aborted pulse's de-energization. -/
theorem c9_search_continues_after_collision_witness :
    search_pulses cfgStd envC9 5 1 []
      = search_pulses cfgStd envC9 4 (pulse_down cfgStd envC9 1).next
          ([] ++ (pulse_down cfgStd envC9 1).trace)
    ∧ ∃ ext, (search_pulses cfgStd envC9 5 1 []).trace
        = [] ++ (pulse_down cfgStd envC9 1).trace
            ++ RelayCmd.downOn :: ext :=
  c9_search_continues_after_collision cfgStd envC9 4 1 [] (by decide)
    (by decide) (by decide) (by decide) (by decide)

/-- C10: constructing the controller (with `movement_thread` still
`None`) runs `home_on_startup`, which starts a move worker targeting
position 1 and reports it started — the actuator may begin moving with no
external move request. -/
theorem c10_construction_starts_homing (cfg : Config) (env : Env) :
    construct_controller cfg env
      = (true, some (move_to_position cfg env 1)) := rfl

end SashHood
